import Mathlib

/-!
Shallow embedding of the OpenLink core (challenge generation, signature
verification, session management, user linking, auth middleware) and proofs
about the claims of its specification.

Conventions of the embedding:
* JavaScript strings are Lean `String`s (lists of characters where character
  scanning is needed).
* `undefined` optional fields are `Option.none`; a JS value that is present
  is `some v`.  A `Partial<...>` update object distinguishes "key absent"
  (`none`) from "key present with value `undefined`" (`some none`), because
  object spread and `!== undefined` observe that difference.
* JS truthiness of an optional string (`if (x)`) is `strTruthy`: present and
  non-empty.  Truthiness of a number is "non-zero".
* `Date.now()` is an explicit clock parameter (`now`); `Math.random`-derived
  values (session ids, generated nonces) are explicit parameters.
* JS `Map` objects are modelled as functions `String → Option α`
  (`Map.set` = pointwise update, `Map.delete` = pointwise removal).
* `async` functions that can reject are `Except String` valued; rejections
  propagate through `await` exactly as in the source.
-/

/-! ## Small helpers: JS maps, truthiness, decimal rendering -/

/-- `Map.set`: pointwise update of a string-keyed map. -/
def fSet {α : Type} (m : String → Option α) (k : String) (v : α) :
    String → Option α :=
  fun x => if x = k then some v else m x

/-- `Map.delete`: pointwise removal from a string-keyed map. -/
def fDel {α : Type} (m : String → Option α) (k : String) :
    String → Option α :=
  fun x => if x = k then none else m x

/-- JS truthiness of an optional string: present and non-empty. -/
def strTruthy (o : Option String) : Bool :=
  match o with
  | none => false
  | some s => !(s == "")

/-- Metadata objects (`Record<string, any>`): key/value association lists.
No claim inspects metadata contents, but the field is carried faithfully. -/
abbrev Metadata : Type := List (String × String)

/-- JS object spread `{ ...a, ...b }` on metadata: keys of `b` override
keys of `a`. -/
def jsMerge (a b : Metadata) : Metadata :=
  a.filter (fun p => b.all (fun q => !(q.1 == p.1))) ++ b

/-- One decimal digit as a character (`'0'` .. `'9'`). -/
def digitChar (d : Nat) : Char := Char.ofNat (48 + d)

/-- Decimal digits of `n`, most significant first, by fuel-guarded recursion
(structural in the fuel, so the kernel can evaluate it). -/
def natDecimalAux : Nat → Nat → List Char
  | 0, _ => []
  | fuel + 1, n => if n = 0 then [] else natDecimalAux fuel (n / 10) ++ [digitChar (n % 10)]

/-- JS `String(n)` for a non-negative integer `n`: its decimal rendering. -/
def natDecimal (n : Nat) : List Char :=
  if n = 0 then ['0'] else natDecimalAux (n + 1) n

/-- JS `parseInt(s, 10)` on a string of decimal digits. -/
def parseDigits (l : List Char) : Nat :=
  l.foldl (fun acc c => acc * 10 + (c.toNat - 48)) 0

/-! ## Challenge Generator and timestamp extraction (`utils.ts`) -/

/-- The literal `"Timestamp: "` scanned for by the verifier's regex. -/
def tsLit : List Char := "Timestamp: ".toList

/-- Try to match the regex `Timestamp: (\d+)` at the head of `s`: the literal
`"Timestamp: "` followed by a maximal non-empty digit run, whose value
(`parseInt(..., 10)`) is returned. -/
def matchTsAt (s : List Char) : Option Nat :=
  if tsLit.isPrefixOf s then
    let ds := (s.drop tsLit.length).takeWhile (fun c => c.isDigit)
    if ds.isEmpty then none else some (parseDigits ds)
  else none

/-- `message.match(/Timestamp: (\d+)/)` + `parseInt`: value of the capture of
the leftmost match, if any. -/
def extractTs : List Char → Option Nat
  | [] => none
  | c :: rest =>
    match matchTsAt (c :: rest) with
    | some n => some n
    | none => extractTs rest

/-- `isMessageTimestampValid(message, maxAgeMs)`: the timestamp line must be
present and satisfy `now - timestamp < maxAgeMs`. -/
def isMessageTimestampValid (message : String) (maxAgeMs : Int) (now : Int) : Bool :=
  match extractTs message.toList with
  | none => false
  | some ts => decide (now - (ts : Int) < maxAgeMs)

/-- `generateSignatureMessage(appName, nonce?)`.  `now` is `Date.now()`;
`randNonce` is the internally generated random nonce
(`Math.random().toString(36).substring(7)`), used when `nonce` is absent or
falsy. -/
def generateSignatureMessage (appName : String) (nonce : Option String)
    (randNonce : String) (now : Nat) : String :=
  let nonceStr := if strTruthy nonce then nonce.getD "" else randNonce
  appName ++ " wants you to sign in with your Solana account.\n\nNonce: " ++
    nonceStr ++ "\nTimestamp: " ++ String.mk (natDecimal now)

/-! ## Signature Verifier (`packages/server/src/auth.ts`)

The cryptographic primitives (`isValidPublicKey`, `verifySignature`) are
external black boxes (base58 + ed25519); they are passed in as oracles
`pkValid` and `sigOk`. -/

structure VerifyResult where
  valid : Bool
  publicKey : Option String := none
  error : Option String := none
  timestamp : Option Nat := none
deriving DecidableEq, Repr

/-- `verifyWalletSignature({publicKey, signature, message, checkTimestamp,
maxAgeMs})`. -/
def verifyWalletSignature (pkValid : String → Bool)
    (sigOk : String → String → String → Bool) (now : Int)
    (publicKey signature message : String)
    (checkTimestamp : Bool) (maxAgeMs : Int) : VerifyResult :=
  if !pkValid publicKey then
    { valid := false, error := some "Invalid public key format" }
  else if checkTimestamp && !isMessageTimestampValid message maxAgeMs now then
    { valid := false, error := some "Message timestamp expired or invalid" }
  else
    let timestamp := extractTs message.toList
    if sigOk message signature publicKey then
      { valid := true, publicKey := some publicKey, timestamp := timestamp }
    else
      { valid := false, error := some "Invalid signature" }

/-! ## Session Manager (`session.ts`) -/

structure WalletSession where
  publicKey : String
  userId : Option String := none
  createdAt : Int
  expiresAt : Option Int := none
  metadata : Option Metadata := none
deriving DecidableEq, Repr

/-- The `MemorySessionStore`'s `sessions` map. -/
def SStore : Type := String → Option WalletSession

def emptySStore : SStore := fun _ => none

/-- `MemorySessionStore.set`. -/
def msSet (store : SStore) (sessionId : String) (data : WalletSession) : SStore :=
  fSet store sessionId data

/-- `MemorySessionStore.delete`. -/
def msDelete (store : SStore) (sessionId : String) : SStore :=
  fDel store sessionId

/-- `MemorySessionStore.get`: a stored session whose `expiresAt` is truthy
(present and non-zero) and `< Date.now()` is deleted and reported missing. -/
def msGet (store : SStore) (sessionId : String) (now : Int) :
    Option WalletSession × SStore :=
  match store sessionId with
  | none => (none, store)
  | some session =>
    if (match session.expiresAt with
        | none => false
        | some e => !(e == 0) && decide (e < now)) then
      (none, msDelete store sessionId)
    else
      (some session, store)

structure CreateSessionOptions where
  userId : Option String := none
  ttl : Option Int := none
  metadata : Option Metadata := none

/-- `SessionManager.createSession(publicKey, options?)` against the in-memory
store.  `sessionId` is the freshly generated random identifier;
`now` is `Date.now()`.  Note the source computes `options?.ttl ||
this.defaultTTL` (JS `||`: a ttl of `0` is falsy and falls back). -/
def createSession (store : SStore) (publicKey : String)
    (options : Option CreateSessionOptions) (now : Int) (defaultTTL : Int)
    (sessionId : String) : String × SStore :=
  let ttl : Int :=
    match options.bind (·.ttl) with
    | some t => if t = 0 then defaultTTL else t
    | none => defaultTTL
  let session : WalletSession :=
    { publicKey := publicKey
      userId := options.bind (·.userId)
      createdAt := now
      expiresAt := some (now + ttl)
      metadata := options.bind (·.metadata) }
  (sessionId, msSet store sessionId session)

/-- `SessionManager.getSession(sessionId)`: delegates to the store's `get`. -/
def getSession (store : SStore) (sessionId : String) (now : Int) :
    Option WalletSession × SStore :=
  msGet store sessionId now

/-! ## User Linking Manager (`user-linking.ts`)

The manager is written against the `UserStore` interface; the in-memory
reference implementation instantiates it below. -/

structure UserRecord where
  id : String
  walletPublicKey : Option String := none
  email : Option String := none
  walletConnectedAt : Option Int := none
  metadata : Option Metadata := none
deriving DecidableEq, Repr

structure UserLinkOptions where
  publicKey : String
  existingUserId : Option String := none
  email : Option String := none
  metadata : Option Metadata := none

/-- A `Partial<UserRecord>` passed to `create`.  (The Manager never passes
`id`; the store's own `data.id || ...` default is still modelled.) -/
structure CreateData where
  id : Option String := none
  walletPublicKey : Option String := none
  email : Option String := none
  walletConnectedAt : Option Int := none
  metadata : Option Metadata := none

/-- A `Partial<UserRecord>` passed to `update`.  Each field distinguishes
"key absent" (`none`) from "key present, value `undefined`" (`some none`)
from "key present with a value" (`some (some v)`), since both the
`!== undefined` test and the object spread observe the difference.
(The Manager never places `id` in update data, so `id` is not carried.) -/
structure UpdateData where
  walletPublicKey : Option (Option String) := none
  email : Option (Option String) := none
  walletConnectedAt : Option (Option Int) := none
  metadata : Option (Option Metadata) := none

/-- The pluggable `UserStore` interface over a store-state type `σ`: each
method returns its result (or rejection) together with the store state. -/
structure UserStoreI (σ : Type) where
  findByPublicKey : σ → String → Except String (Option UserRecord) × σ
  findByUserId : σ → String → Except String (Option UserRecord) × σ
  findByEmail : σ → String → Except String (Option UserRecord) × σ
  create : σ → CreateData → Except String UserRecord × σ
  update : σ → String → UpdateData → Except String UserRecord × σ

/-- Step 4 of `linkOrCreateUser`: create a new record. -/
def createNewUser {σ : Type} (S : UserStoreI σ) (now : Int)
    (o : UserLinkOptions) (s : σ) : Except String UserRecord × σ :=
  S.create s
    { walletPublicKey := some o.publicKey
      email := o.email
      walletConnectedAt := some now
      metadata := o.metadata }

/-- Steps 3–4 of `linkOrCreateUser`: the `email` branch, falling through to
creation. -/
def linkViaEmailOrCreate {σ : Type} (S : UserStoreI σ) (now : Int)
    (o : UserLinkOptions) (s : σ) : Except String UserRecord × σ :=
  if strTruthy o.email then
    match S.findByEmail s (o.email.getD "") with
    | (.error e, s1) => (.error e, s1)
    | (.ok (some user), s1) =>
      if strTruthy user.walletPublicKey then
        (.error "Email already has a linked wallet", s1)
      else
        S.update s1 user.id
          { walletPublicKey := some (some o.publicKey)
            walletConnectedAt := some (some now)
            metadata := some (some (jsMerge (user.metadata.getD []) (o.metadata.getD []))) }
    | (.ok none, s1) => createNewUser S now o s1
  else createNewUser S now o s

/-- `UserLinkingManager.linkOrCreateUser(options)`. -/
def linkOrCreateUser {σ : Type} (S : UserStoreI σ) (now : Int)
    (o : UserLinkOptions) (s : σ) : Except String UserRecord × σ :=
  match S.findByPublicKey s o.publicKey with
  | (.error e, s1) => (.error e, s1)
  | (.ok (some existingWallet), s1) => (.ok existingWallet, s1)
  | (.ok none, s1) =>
    if strTruthy o.existingUserId then
      match S.findByUserId s1 (o.existingUserId.getD "") with
      | (.error e, s2) => (.error e, s2)
      | (.ok none, s2) => (.error "User not found", s2)
      | (.ok (some user), s2) =>
        if strTruthy user.walletPublicKey then
          (.error "User already has a linked wallet", s2)
        else
          S.update s2 (o.existingUserId.getD "")
            { walletPublicKey := some (some o.publicKey)
              walletConnectedAt := some (some now)
              metadata := some (some (jsMerge (user.metadata.getD []) (o.metadata.getD []))) }
    else linkViaEmailOrCreate S now o s1

/-- `UserLinkingManager.unlinkWallet(userId)`: clears the two wallet fields
by updating them to `undefined` (keys present, value `undefined`). -/
def unlinkWallet {σ : Type} (S : UserStoreI σ) (userId : String) (s : σ) :
    Except String UserRecord × σ :=
  match S.findByUserId s userId with
  | (.error e, s1) => (.error e, s1)
  | (.ok none, s1) => (.error "User not found", s1)
  | (.ok (some _), s1) =>
    S.update s1 userId { walletPublicKey := some none, walletConnectedAt := some none }

/-- `UserLinkingManager.getUserByPublicKey(publicKey)`. -/
def getUserByPublicKey {σ : Type} (S : UserStoreI σ) (publicKey : String)
    (s : σ) : Except String (Option UserRecord) × σ :=
  S.findByPublicKey s publicKey

/-- `UserLinkingManager.isWalletLinked(publicKey)`: `user !== null`. -/
def isWalletLinked {σ : Type} (S : UserStoreI σ) (publicKey : String)
    (s : σ) : Except String Bool × σ :=
  match S.findByPublicKey s publicKey with
  | (.error e, s1) => (.error e, s1)
  | (.ok u, s1) => (.ok u.isSome, s1)

/-! ## In-memory `UserStore` (`MemoryUserStore`) -/

structure UStore where
  users : String → Option UserRecord
  emailIndex : String → Option String
  walletIndex : String → Option String
  nextId : Nat

def emptyUStore : UStore :=
  { users := fun _ => none
    emailIndex := fun _ => none
    walletIndex := fun _ => none
    nextId := 1 }

/-- `MemoryUserStore.findByPublicKey`: consult the wallet index
(`if (!userId) return null`), then the `users` map (`|| null`). -/
def memFindByPublicKey (s : UStore) (publicKey : String) : Option UserRecord :=
  match s.walletIndex publicKey with
  | none => none
  | some userId => if userId = "" then none else s.users userId

/-- `MemoryUserStore.findByEmail`. -/
def memFindByEmail (s : UStore) (email : String) : Option UserRecord :=
  match s.emailIndex email with
  | none => none
  | some userId => if userId = "" then none else s.users userId

/-- `MemoryUserStore.create`: `id` defaults to `String(this.nextId++)`
(the increment happens only when `data.id` is falsy); the email and wallet
indexes are populated only for truthy field values. -/
def memCreate (s : UStore) (data : CreateData) : UserRecord × UStore :=
  let idNext : String × Nat :=
    match data.id with
    | some i => if i = "" then (String.mk (natDecimal s.nextId), s.nextId + 1) else (i, s.nextId)
    | none => (String.mk (natDecimal s.nextId), s.nextId + 1)
  let user : UserRecord :=
    { id := idNext.1
      walletPublicKey := data.walletPublicKey
      email := data.email
      walletConnectedAt := data.walletConnectedAt
      metadata := some (data.metadata.getD []) }
  let users' := fSet s.users user.id user
  let emailIndex' :=
    if strTruthy user.email then fSet s.emailIndex (user.email.getD "") user.id
    else s.emailIndex
  let walletIndex' :=
    if strTruthy user.walletPublicKey then
      fSet s.walletIndex (user.walletPublicKey.getD "") user.id
    else s.walletIndex
  (user, { users := users', emailIndex := emailIndex', walletIndex := walletIndex',
           nextId := idNext.2 })

/-- `MemoryUserStore.update`: throws `'User not found'` for a missing id;
re-indexes `email` when a truthy, different email is supplied; re-indexes
`walletPublicKey` only when `data.walletPublicKey !== undefined` (so updating
it *to* `undefined` leaves the wallet index untouched); the record itself is
`{ ...user, ...data }` (present keys override, even with value `undefined`). -/
def memUpdate (s : UStore) (userId : String) (data : UpdateData) :
    Except String UserRecord × UStore :=
  match s.users userId with
  | none => (.error "User not found", s)
  | some user =>
    let emailIndex' :=
      match data.email with
      | some (some e) =>
        if e ≠ "" ∧ user.email ≠ some e then
          fSet (if strTruthy user.email then fDel s.emailIndex (user.email.getD "")
                else s.emailIndex) e userId
        else s.emailIndex
      | _ => s.emailIndex
    let walletIndex' :=
      match data.walletPublicKey with
      | some (some w) =>
        let base :=
          if strTruthy user.walletPublicKey then
            fDel s.walletIndex (user.walletPublicKey.getD "")
          else s.walletIndex
        if w ≠ "" then fSet base w userId else base
      | _ => s.walletIndex
    let updatedUser : UserRecord :=
      { id := user.id
        walletPublicKey := (data.walletPublicKey).getD user.walletPublicKey
        email := (data.email).getD user.email
        walletConnectedAt := (data.walletConnectedAt).getD user.walletConnectedAt
        metadata := (data.metadata).getD user.metadata }
    (.ok updatedUser,
     { users := fSet s.users userId updatedUser
       emailIndex := emailIndex'
       walletIndex := walletIndex'
       nextId := s.nextId })

/-- `MemoryUserStore` as an instance of the `UserStore` interface: the find
and create methods never reject. -/
def memoryUserStore : UserStoreI UStore :=
  { findByPublicKey := fun s pk => (.ok (memFindByPublicKey s pk), s)
    findByUserId := fun s uid => (.ok (s.users uid), s)
    findByEmail := fun s e => (.ok (memFindByEmail s e), s)
    create := fun s d => (.ok (memCreate s d).1, (memCreate s d).2)
    update := fun s uid d => memUpdate s uid d }

/-! ## Request Authenticator: the optional middleware (`middleware.ts`) -/

/-- The value found at `req.headers[headerName.toLowerCase()]`: absent, a
single string, or an array of strings (`typeof` rejects the array form). -/
inductive HeaderValue where
  | missing
  | str (s : String)
  | strs (l : List String)

/-- Observable outcome of one middleware invocation on a request. -/
structure MwOutcome where
  nextCalled : Bool
  status : Option Nat
  attachedKey : Option String
deriving DecidableEq, Repr

/-- `const [publicKey, signature, encodedMessage] =
authHeader.slice(7).split(':')`: the three destructured fields (a missing
field is `undefined`, which the subsequent falsiness test conflates with
`""`). -/
def parseWalletHeader (h : String) : String × String × String :=
  let parts := (h.drop 7).splitOn ":"
  (parts.getD 0 "", parts.getD 1 "", parts.getD 2 "")

/-- The handler produced by `createOptionalWalletAuthMiddleware`.
`decodeURI` models `decodeURIComponent` (`none` = thrown `URIError`, caught
by the surrounding `try` which then calls `next()`). -/
def optionalWalletAuthMiddleware (pkValid : String → Bool)
    (sigOk : String → String → String → Bool)
    (decodeURI : String → Option String)
    (checkTimestamp : Bool) (maxAgeMs : Int) (now : Int)
    (header : HeaderValue) : MwOutcome :=
  let pass : MwOutcome := { nextCalled := true, status := none, attachedKey := none }
  match header with
  | .missing => pass
  | .strs _ => pass
  | .str h =>
    if h = "" then pass
    else if !h.startsWith "Wallet " then pass
    else
      let publicKey := (parseWalletHeader h).1
      let signature := (parseWalletHeader h).2.1
      let encodedMessage := (parseWalletHeader h).2.2
      if publicKey = "" ∨ signature = "" ∨ encodedMessage = "" then pass
      else
        match decodeURI encodedMessage with
        | none => pass
        | some message =>
          let result := verifyWalletSignature pkValid sigOk now publicKey
            signature message checkTimestamp maxAgeMs
          if result.valid then
            { nextCalled := true, status := none, attachedKey := result.publicKey }
          else pass

/-! ## Generic helper instances and lemmas -/

instance {ε α : Type} [DecidableEq ε] [DecidableEq α] : DecidableEq (Except ε α) := fun a b =>
  match a, b with
  | .ok x, .ok y => if h : x = y then .isTrue (by rw [h]) else .isFalse (by simp [h])
  | .error x, .error y => if h : x = y then .isTrue (by rw [h]) else .isFalse (by simp [h])
  | .ok _, .error _ => .isFalse (by simp)
  | .error _, .ok _ => .isFalse (by simp)

theorem fSet_same {α : Type} (m : String → Option α) (k : String) (v : α) :
    fSet m k v k = some v := by
  simp [fSet]

theorem fSet_other {α : Type} (m : String → Option α) {k x : String} (v : α)
    (h : x ≠ k) : fSet m k v x = m x := by
  simp [fSet, h]

theorem fDel_other {α : Type} (m : String → Option α) {k x : String}
    (h : x ≠ k) : fDel m k x = m x := by
  simp [fDel, h]

/-! ## Claim C9 — timestamp boundary -/

/-- C9: for every message carrying a `Timestamp:` line and every `maxAgeMs`,
the timestamp check rejects a message exactly `maxAgeMs + 1` milliseconds old
and accepts one exactly `maxAgeMs - 1` milliseconds old. -/
theorem timestamp_boundary (msg : String) (ts : Nat) (maxAge : Int)
    (h : extractTs msg.toList = some ts) :
    isMessageTimestampValid msg maxAge ((ts : Int) + maxAge + 1) = false ∧
    isMessageTimestampValid msg maxAge ((ts : Int) + maxAge - 1) = true := by
  unfold isMessageTimestampValid
  rw [h]
  constructor
  · simp only [decide_eq_false_iff_not]
    omega
  · simp only [decide_eq_true_eq]
    omega

/-- Witness for C9 at a concrete message and age. -/
theorem timestamp_boundary_witness :
    isMessageTimestampValid "Timestamp: 7" 300000 ((7 : Int) + 300000 + 1) = false ∧
    isMessageTimestampValid "Timestamp: 7" 300000 ((7 : Int) + 300000 - 1) = true :=
  timestamp_boundary "Timestamp: 7" 7 300000 (by decide)

/-! ## Claim C2 — future timestamps -/

/-- C2 counterexample: a message whose `Timestamp:` lies far in the future
(about 31 years past `now = 1000`) is *not* rejected by `verify` with
`checkTimestamp = true`: with a passing signature oracle the result is
`valid = true` with no error, where the claim demands `valid = false` with
the timestamp error. -/
theorem future_timestamp_counterexample :
    (verifyWalletSignature (fun _ => true) (fun _ _ _ => true) 1000 "PK" "SIG"
      "Timestamp: 1000000000000" true 300000).valid = true ∧
    (verifyWalletSignature (fun _ => true) (fun _ _ _ => true) 1000 "PK" "SIG"
      "Timestamp: 1000000000000" true 300000).error = none := by
  refine ⟨by decide, by decide⟩

/-- C2 amended: a message whose embedded `Timestamp:` is at or after `now`
always passes the timestamp check (the check only rejects a missing line or
`now - timestamp ≥ maxAgeMs`), so verification with `checkTimestamp = true`
coincides with verification with `checkTimestamp = false`. -/
theorem future_timestamp_accepted (pkValid : String → Bool)
    (sigOk : String → String → String → Bool) (now maxAge : Int)
    (pk sig msg : String) (ts : Nat)
    (hts : extractTs msg.toList = some ts) (hfut : now ≤ (ts : Int))
    (hpos : 0 < maxAge) :
    verifyWalletSignature pkValid sigOk now pk sig msg true maxAge =
      verifyWalletSignature pkValid sigOk now pk sig msg false maxAge := by
  have hvalid : isMessageTimestampValid msg maxAge now = true := by
    unfold isMessageTimestampValid
    rw [hts]
    simp only [decide_eq_true_eq]
    omega
  unfold verifyWalletSignature
  rw [hvalid]
  simp

/-- Witness for the amended C2 at a concrete future-dated message. -/
theorem future_timestamp_accepted_witness :
    verifyWalletSignature (fun _ => true) (fun _ _ _ => true) 0 "pk" "sg"
        "Timestamp: 5" true 1 =
      verifyWalletSignature (fun _ => true) (fun _ _ _ => true) 0 "pk" "sg"
        "Timestamp: 5" false 1 :=
  future_timestamp_accepted _ _ 0 1 "pk" "sg" "Timestamp: 5" 5
    (by decide) (by decide) (by decide)

/-! ## Claim C4 — createSession and ttl -/

/-- C4 counterexample: `createSession` with `ttl = 0` persists
`expiresAt = now + defaultTTL` (JS `options?.ttl || defaultTTL` treats `0`
as falsy), not `now + 0` as the claim demands. -/
theorem createSession_zero_ttl_counterexample :
    (((createSession emptySStore "PK" (some { ttl := some 0 }) 1000 86400000
        "sid").2 "sid").map (fun s => s.expiresAt)) = some (some 86401000) ∧
    ¬ ((86401000 : Int) = 1000 + 0) := by
  refine ⟨by decide, by decide⟩

/-- C4 amended: the session persisted under the returned identifier has
`createdAt = now` and `expiresAt = now + t` where `t` is the supplied `ttl`
when that is present and non-zero, and `defaultTTL` otherwise (a `ttl` of
`0` falls back to `defaultTTL`). -/
theorem createSession_persists (store : SStore) (pk : String)
    (options : Option CreateSessionOptions) (now defaultTTL : Int) (sid : String) :
    (createSession store pk options now defaultTTL sid).1 = sid ∧
    (createSession store pk options now defaultTTL sid).2 sid = some
      { publicKey := pk
        userId := options.bind (·.userId)
        createdAt := now
        expiresAt := some (now +
          match options.bind (·.ttl) with
          | some t => if t = 0 then defaultTTL else t
          | none => defaultTTL)
        metadata := options.bind (·.metadata) } := by
  refine ⟨rfl, ?_⟩
  simp [createSession, msSet, fSet]

/-! ## Claim C7 — getSession on missing and expired sessions -/

def zeroExpirySession : WalletSession :=
  { publicKey := "PK", createdAt := 0, expiresAt := some 0 }

def zeroExpiryStore : SStore := msSet emptySStore "sid" zeroExpirySession

/-- C7 counterexample: a stored session whose `expiresAt` is `0` — a time in
the past at `now = 5` — is returned by `getSession`, not reported `null`
(JS truthiness: `session.expiresAt && ...` skips the expiry check for `0`). -/
theorem getSession_zero_expiry_counterexample :
    (getSession zeroExpiryStore "sid" 5).1 = some zeroExpirySession ∧
    zeroExpirySession.expiresAt = some 0 ∧ ((0 : Int) < 5) := by
  refine ⟨rfl, rfl, by decide⟩

/-- C7 amended: `getSession` returns `null` for a missing session, and for a
stored session whose `expiresAt` is present, *non-zero* and in the past; in
the latter case the session is deleted and every subsequent read of that id
returns `null`.  (A stored `expiresAt` of exactly `0` is falsy in JS and is
treated as "no expiry".) -/
theorem getSession_missing_or_expired (store : SStore) (sid : String) (now : Int) :
    (store sid = none → getSession store sid now = (none, store)) ∧
    (∀ sess e, store sid = some sess → sess.expiresAt = some e → e ≠ 0 → e < now →
      getSession store sid now = (none, msDelete store sid) ∧
      ∀ now2, getSession (msDelete store sid) sid now2 = (none, msDelete store sid)) := by
  constructor
  · intro h
    simp [getSession, msGet, h]
  · intro sess e hs he hne hlt
    constructor
    · simp [getSession, msGet, hs, he, hne, hlt]
    · intro now2
      have hdel : (msDelete store sid) sid = none := by simp [msDelete, fDel]
      simp [getSession, msGet, hdel]

def expiredSession : WalletSession :=
  { publicKey := "PK", createdAt := 0, expiresAt := some 1 }

def expiredStore : SStore := msSet emptySStore "sid" expiredSession

/-- Witness for the amended C7: a concrete expired session is pruned. -/
theorem getSession_missing_or_expired_witness :
    getSession expiredStore "sid" 5 = (none, msDelete expiredStore "sid") :=
  ((getSession_missing_or_expired expiredStore "sid" 5).2 expiredSession 1
    rfl rfl (by decide) (by decide)).1

/-! ## Claim C3 — storage errors from create/update -/

def uniqueViolation : String := "UNIQUE constraint failed: users.walletPublicKey"

/-- A `UserStore` (state = number of `findByPublicKey` calls) whose mutating
methods reject with a raw uniqueness-constraint error. -/
def failingCreateStore : UserStoreI Nat :=
  { findByPublicKey := fun n _ => (.ok none, n + 1)
    findByUserId := fun n _ => (.ok none, n)
    findByEmail := fun n _ => (.ok none, n)
    create := fun n _ => (.error uniqueViolation, n)
    update := fun n _ _ => (.error uniqueViolation, n) }

/-- C3 counterexample: when `create` rejects with a raw uniqueness-constraint
error, `linkOrCreateUser` propagates that raw error unchanged, and the final
state `1` shows the read path (`findByPublicKey`) ran exactly once — there is
no retry and no translation to a wallet-already-linked failure. -/
theorem linkOrCreateUser_raw_error_counterexample :
    linkOrCreateUser failingCreateStore 0 { publicKey := "PK" } 0
      = (.error uniqueViolation, 1) ∧
    uniqueViolation ≠ "Wallet already linked" ∧
    uniqueViolation ≠ "User already has a linked wallet" := by
  refine ⟨rfl, by decide, by decide⟩

/-- C3 amended: the Manager has no uniqueness-violation handling at all — a
rejection raised by the store's `create` or `update` at any of the four
mutation sites of `linkOrCreateUser` (create with no email, update via
`existingUserId`, update via a matching `email`, create after an email miss)
propagates unchanged to the caller, with no retry of the read path. -/
theorem storage_errors_propagate :
    (∀ (σ : Type) (S : UserStoreI σ) (now : Int) (o : UserLinkOptions)
      (s s1 s2 : σ) (e : String),
      S.findByPublicKey s o.publicKey = (.ok none, s1) →
      strTruthy o.existingUserId = false → strTruthy o.email = false →
      S.create s1
        { walletPublicKey := some o.publicKey
          email := o.email
          walletConnectedAt := some now
          metadata := o.metadata } = (.error e, s2) →
      linkOrCreateUser S now o s = (.error e, s2)) ∧
    (∀ (σ : Type) (S : UserStoreI σ) (now : Int) (o : UserLinkOptions)
      (s s1 s2 s3 : σ) (user : UserRecord) (e : String),
      S.findByPublicKey s o.publicKey = (.ok none, s1) →
      strTruthy o.existingUserId = true →
      S.findByUserId s1 (o.existingUserId.getD "") = (.ok (some user), s2) →
      strTruthy user.walletPublicKey = false →
      S.update s2 (o.existingUserId.getD "")
        { walletPublicKey := some (some o.publicKey)
          walletConnectedAt := some (some now)
          metadata := some (some (jsMerge (user.metadata.getD []) (o.metadata.getD []))) }
        = (.error e, s3) →
      linkOrCreateUser S now o s = (.error e, s3)) ∧
    (∀ (σ : Type) (S : UserStoreI σ) (now : Int) (o : UserLinkOptions)
      (s s1 s2 s3 : σ) (user : UserRecord) (e : String),
      S.findByPublicKey s o.publicKey = (.ok none, s1) →
      strTruthy o.existingUserId = false →
      strTruthy o.email = true →
      S.findByEmail s1 (o.email.getD "") = (.ok (some user), s2) →
      strTruthy user.walletPublicKey = false →
      S.update s2 user.id
        { walletPublicKey := some (some o.publicKey)
          walletConnectedAt := some (some now)
          metadata := some (some (jsMerge (user.metadata.getD []) (o.metadata.getD []))) }
        = (.error e, s3) →
      linkOrCreateUser S now o s = (.error e, s3)) ∧
    (∀ (σ : Type) (S : UserStoreI σ) (now : Int) (o : UserLinkOptions)
      (s s1 s2 s3 : σ) (e : String),
      S.findByPublicKey s o.publicKey = (.ok none, s1) →
      strTruthy o.existingUserId = false →
      strTruthy o.email = true →
      S.findByEmail s1 (o.email.getD "") = (.ok none, s2) →
      S.create s2
        { walletPublicKey := some o.publicKey
          email := o.email
          walletConnectedAt := some now
          metadata := o.metadata } = (.error e, s3) →
      linkOrCreateUser S now o s = (.error e, s3)) := by
  refine ⟨?_, ?_, ?_, ?_⟩
  · intro σ S now o s s1 s2 e hfind hid hemail hcreate
    unfold linkOrCreateUser
    rw [hfind, hid]
    unfold linkViaEmailOrCreate
    rw [hemail]
    unfold createNewUser
    simp [hcreate]
  · intro σ S now o s s1 s2 s3 user e hfind hid hbyid hfalsy hupdate
    simp only [linkOrCreateUser, hfind, hid, if_true, hbyid, hfalsy,
      Bool.false_eq_true, if_false, hupdate]
  · intro σ S now o s s1 s2 s3 user e hfind hid hem hbye hfalsy hupdate
    simp only [linkOrCreateUser, hfind, hid, Bool.false_eq_true, if_false,
      linkViaEmailOrCreate, hem, if_true, hbye, hfalsy, hupdate]
  · intro σ S now o s s1 s2 s3 e hfind hid hem hbye hcreate
    simp only [linkOrCreateUser, hfind, hid, Bool.false_eq_true, if_false,
      linkViaEmailOrCreate, hem, if_true, hbye, createNewUser, hcreate]

/-- Witness for the amended C3 at a concrete failing store, exercising both
the create-with-no-email path and the create-after-an-email-miss path. -/
theorem storage_errors_propagate_witness :
    linkOrCreateUser failingCreateStore 7 { publicKey := "PK" } 41
      = (.error uniqueViolation, 42) ∧
    linkOrCreateUser failingCreateStore 7 { publicKey := "PK", email := some "a@b" } 41
      = (.error uniqueViolation, 42) :=
  ⟨storage_errors_propagate.1 Nat failingCreateStore 7 { publicKey := "PK" }
      41 42 42 uniqueViolation rfl rfl rfl rfl,
   storage_errors_propagate.2.2.2 Nat failingCreateStore 7
      { publicKey := "PK", email := some "a@b" } 41 42 42 42 uniqueViolation
      rfl rfl (by decide) rfl rfl⟩

/-! ## Claim C10 — the optional middleware -/

/-- A verification result with `valid = true` always echoes back the
submitted public key. -/
theorem verify_valid_publicKey (pkValid : String → Bool)
    (sigOk : String → String → String → Bool) (now : Int)
    (pk sig msg : String) (ct : Bool) (maxAge : Int)
    (h : (verifyWalletSignature pkValid sigOk now pk sig msg ct maxAge).valid = true) :
    (verifyWalletSignature pkValid sigOk now pk sig msg ct maxAge).publicKey = some pk := by
  unfold verifyWalletSignature at h ⊢
  split_ifs at h ⊢
  all_goals simp_all

/-- Reduction of the optional middleware on a well-formed header whose
message decodes: the outcome is decided by the Signature Verifier. -/
theorem mw_reduce (pkValid : String → Bool)
    (sigOk : String → String → String → Bool)
    (decodeURI : String → Option String)
    (ct : Bool) (maxAge now : Int) (h : String) (msg : String)
    (hemp : ¬h = "") (hsw : h.startsWith "Wallet " = true)
    (h1 : (parseWalletHeader h).1 ≠ "") (h2 : (parseWalletHeader h).2.1 ≠ "")
    (h3 : (parseWalletHeader h).2.2 ≠ "")
    (hdec : decodeURI (parseWalletHeader h).2.2 = some msg) :
    optionalWalletAuthMiddleware pkValid sigOk decodeURI ct maxAge now (.str h) =
      (if (verifyWalletSignature pkValid sigOk now (parseWalletHeader h).1
            (parseWalletHeader h).2.1 msg ct maxAge).valid then
        { nextCalled := true, status := none,
          attachedKey := (verifyWalletSignature pkValid sigOk now (parseWalletHeader h).1
            (parseWalletHeader h).2.1 msg ct maxAge).publicKey }
      else { nextCalled := true, status := none, attachedKey := none }) := by
  dsimp only [optionalWalletAuthMiddleware]
  rw [if_neg hemp, if_neg (by simp [hsw]), if_neg (by simp [h1, h2, h3]), hdec]

/-- C10: the optional middleware calls `next()` on every request, never
writes a status (no unauthorized response), and attaches a public key to the
request exactly when the header is present, well-formed (scheme prefix and
three non-empty fields), its message decodes, and the Signature Verifier
accepts — in which case the attached key is the header's publicKey field. -/
theorem optional_middleware_never_rejects (pkValid : String → Bool)
    (sigOk : String → String → String → Bool)
    (decodeURI : String → Option String)
    (ct : Bool) (maxAge now : Int) (header : HeaderValue) :
    (optionalWalletAuthMiddleware pkValid sigOk decodeURI ct maxAge now header).nextCalled = true ∧
    (optionalWalletAuthMiddleware pkValid sigOk decodeURI ct maxAge now header).status = none ∧
    (∀ k, (optionalWalletAuthMiddleware pkValid sigOk decodeURI ct maxAge now header).attachedKey = some k ↔
      ∃ hs, header = .str hs ∧ hs.startsWith "Wallet " = true ∧
        (parseWalletHeader hs).1 ≠ "" ∧ (parseWalletHeader hs).2.1 ≠ "" ∧
        (parseWalletHeader hs).2.2 ≠ "" ∧
        ∃ msg, decodeURI (parseWalletHeader hs).2.2 = some msg ∧
          (verifyWalletSignature pkValid sigOk now (parseWalletHeader hs).1
            (parseWalletHeader hs).2.1 msg ct maxAge).valid = true ∧
          k = (parseWalletHeader hs).1) := by
  cases header with
  | missing =>
    refine ⟨rfl, rfl, fun k => ⟨fun hk => absurd hk (by simp [optionalWalletAuthMiddleware]), ?_⟩⟩
    rintro ⟨hs, hh, -⟩
    cases hh
  | strs l =>
    refine ⟨rfl, rfl, fun k => ⟨fun hk => absurd hk (by simp [optionalWalletAuthMiddleware]), ?_⟩⟩
    rintro ⟨hs, hh, -⟩
    cases hh
  | str h =>
    by_cases hemp : h = ""
    · subst hemp
      refine ⟨rfl, rfl, fun k => ⟨fun hk => absurd hk (by simp [optionalWalletAuthMiddleware]), ?_⟩⟩
      rintro ⟨hs, hh, hsw, -⟩
      cases hh
      exact absurd hsw (by decide)
    · by_cases hsw : h.startsWith "Wallet "
      · by_cases hfields : (parseWalletHeader h).1 = "" ∨ (parseWalletHeader h).2.1 = "" ∨ (parseWalletHeader h).2.2 = ""
        · have hred : optionalWalletAuthMiddleware pkValid sigOk decodeURI ct maxAge now (.str h) =
              { nextCalled := true, status := none, attachedKey := none } := by
            dsimp only [optionalWalletAuthMiddleware]
            rw [if_neg hemp, if_neg (by simp [hsw]), if_pos hfields]
          refine ⟨by rw [hred], by rw [hred], fun k => ⟨fun hk => absurd hk (by rw [hred]; exact fun hc => Option.noConfusion hc), ?_⟩⟩
          rintro ⟨hs, hh, -, h1, h2, h3, -⟩
          cases hh
          rcases hfields with x | x | x
          · exact absurd x h1
          · exact absurd x h2
          · exact absurd x h3
        · push_neg at hfields
          obtain ⟨h1, h2, h3⟩ := hfields
          rcases hdec : decodeURI (parseWalletHeader h).2.2 with _ | msg
          · have hred : optionalWalletAuthMiddleware pkValid sigOk decodeURI ct maxAge now (.str h) =
                { nextCalled := true, status := none, attachedKey := none } := by
              dsimp only [optionalWalletAuthMiddleware]
              rw [if_neg hemp, if_neg (by simp [hsw]), if_neg (by simp [h1, h2, h3]), hdec]
            refine ⟨by rw [hred], by rw [hred], fun k => ⟨fun hk => absurd hk (by rw [hred]; exact fun hc => Option.noConfusion hc), ?_⟩⟩
            rintro ⟨hs, hh, -, -, -, -, msg, hdec2, -⟩
            cases hh
            rw [hdec] at hdec2
            exact Option.noConfusion hdec2
          · have hred := mw_reduce pkValid sigOk decodeURI ct maxAge now h msg hemp hsw h1 h2 h3 hdec
            have hpk0 := fun hv => verify_valid_publicKey pkValid sigOk now
              (parseWalletHeader h).1 (parseWalletHeader h).2.1 msg ct maxAge hv
            generalize hres : verifyWalletSignature pkValid sigOk now (parseWalletHeader h).1
              (parseWalletHeader h).2.1 msg ct maxAge = r at hred hpk0
            by_cases hvalid : r.valid = true
            · rw [if_pos hvalid] at hred
              have hpk := hpk0 hvalid
              refine ⟨by rw [hred], by rw [hred], fun k => ?_⟩
              constructor
              · intro hk
                rw [hred] at hk
                have hk2 : r.publicKey = some k := hk
                rw [hpk] at hk2
                have hk3 := Option.some.inj hk2
                exact ⟨h, rfl, hsw, h1, h2, h3, msg, hdec, by rw [hres]; exact hvalid, hk3.symm⟩
              · rintro ⟨hs, hh, -, -, -, -, msg2, hdec2, hvalid2, hk⟩
                cases hh
                rw [hdec] at hdec2
                have he := Option.some.inj hdec2
                subst he
                subst hk
                rw [hred]
                exact hpk
            · rw [if_neg hvalid] at hred
              refine ⟨by rw [hred], by rw [hred], fun k => ⟨fun hk => absurd hk (by rw [hred]; exact fun hc => Option.noConfusion hc), ?_⟩⟩
              rintro ⟨hs, hh, -, -, -, -, msg2, hdec2, hvalid2, -⟩
              cases hh
              rw [hdec] at hdec2
              have he := Option.some.inj hdec2
              subst he
              rw [hres] at hvalid2
              exact absurd hvalid2 hvalid
      · have hred : optionalWalletAuthMiddleware pkValid sigOk decodeURI ct maxAge now (.str h) =
            { nextCalled := true, status := none, attachedKey := none } := by
          dsimp only [optionalWalletAuthMiddleware]
          rw [if_neg hemp, if_pos (by simp [hsw])]
        refine ⟨by rw [hred], by rw [hred], fun k => ⟨fun hk => absurd hk (by rw [hred]; exact fun hc => Option.noConfusion hc), ?_⟩⟩
        rintro ⟨hs, hh, hsw2, -⟩
        cases hh
        exact absurd hsw2 hsw

/-! ## Claim C8 — challenge generation vs. timestamp extraction

Decimal-rendering/parsing lemmas, then leftmost-match reasoning. -/
theorem digitChar_isDigit {d : Nat} (hd : d < 10) : (digitChar d).isDigit = true := by
  interval_cases d <;> decide

theorem digitChar_toNat {d : Nat} (hd : d < 10) : (digitChar d).toNat - 48 = d := by
  interval_cases d <;> decide

theorem parseDigits_append_singleton (xs : List Char) (c : Char) :
    parseDigits (xs ++ [c]) = parseDigits xs * 10 + (c.toNat - 48) := by
  simp [parseDigits, List.foldl_append]

theorem natDecimalAux_spec : ∀ (fuel n : Nat), n < fuel →
    parseDigits (natDecimalAux fuel n) = n ∧
    ∀ c ∈ natDecimalAux fuel n, c.isDigit = true := by
  intro fuel
  induction fuel with
  | zero => intro n hn; omega
  | succ fuel ih =>
    intro n hn
    by_cases h0 : n = 0
    · subst h0
      simp [natDecimalAux, parseDigits]
    · have hdiv : n / 10 < fuel := by
        have h1 : n / 10 < n := Nat.div_lt_self (Nat.pos_of_ne_zero h0) (by omega)
        omega
      obtain ⟨hparse, hdig⟩ := ih (n / 10) hdiv
      have hone : natDecimalAux (fuel + 1) n
          = natDecimalAux fuel (n / 10) ++ [digitChar (n % 10)] := by
        simp [natDecimalAux, h0]
      rw [hone]
      constructor
      · rw [parseDigits_append_singleton, hparse, digitChar_toNat (Nat.mod_lt n (by omega))]
        omega
      · intro c hc
        rcases List.mem_append.mp hc with hc | hc
        · exact hdig c hc
        · rw [List.mem_singleton.mp hc]
          exact digitChar_isDigit (Nat.mod_lt n (by omega))

theorem natDecimal_parse (n : Nat) : parseDigits (natDecimal n) = n := by
  by_cases h0 : n = 0
  · subst h0; decide
  · unfold natDecimal
    rw [if_neg h0]
    exact (natDecimalAux_spec (n + 1) n (by omega)).1

theorem natDecimal_digits (n : Nat) : ∀ c ∈ natDecimal n, c.isDigit = true := by
  by_cases h0 : n = 0
  · subst h0; decide
  · unfold natDecimal
    rw [if_neg h0]
    exact (natDecimalAux_spec (n + 1) n (by omega)).2

theorem natDecimal_ne_nil (n : Nat) : natDecimal n ≠ [] := by
  by_cases h0 : n = 0
  · subst h0; decide
  · unfold natDecimal
    rw [if_neg h0]
    cases hn : natDecimalAux (n + 1) n with
    | nil =>
      exfalso
      have := natDecimal_parse n
      unfold natDecimal at this
      rw [if_neg h0, hn] at this
      simp [parseDigits] at this
      exact h0 this.symm
    | cons c l => simp

theorem takeWhile_all {p : Char → Bool} :
    ∀ l : List Char, (∀ c ∈ l, p c = true) → l.takeWhile p = l := by
  intro l
  induction l with
  | nil => intro _; rfl
  | cons c xs ih =>
    intro h
    rw [List.takeWhile_cons, if_pos (h c (by simp))]
    rw [ih (fun x hx => h x (by simp [hx]))]

theorem matchTsAt_tsLit (n : Nat) : matchTsAt (tsLit ++ natDecimal n) = some n := by
  unfold matchTsAt
  rw [if_pos (by simp [List.isPrefixOf_iff_prefix, List.prefix_append])]
  rw [List.drop_left]
  rw [takeWhile_all _ (natDecimal_digits n)]
  rw [if_neg (by simp [List.isEmpty_iff, natDecimal_ne_nil])]
  rw [natDecimal_parse]

theorem extractTs_of_matchTsAt {l : List Char} {n : Nat} (hne : l ≠ [])
    (h : matchTsAt l = some n) : extractTs l = some n := by
  cases l with
  | nil => exact absurd rfl hne
  | cons c rest =>
    unfold extractTs
    rw [h]

theorem extractTs_append_of_none : ∀ (xs ys : List Char),
    (∀ i, i < xs.length → matchTsAt ((xs ++ ys).drop i) = none) →
    extractTs (xs ++ ys) = extractTs ys := by
  intro xs
  induction xs with
  | nil => intro ys _; rfl
  | cons c xs ih =>
    intro ys h
    have h0 := h 0 (by simp)
    rw [List.drop_zero] at h0
    have hstep : extractTs ((c :: xs) ++ ys) = extractTs (xs ++ ys) := by
      rw [List.cons_append] at h0 ⊢
      have hunf : extractTs (c :: (xs ++ ys))
          = match matchTsAt (c :: (xs ++ ys)) with
            | some n => some n
            | none => extractTs (xs ++ ys) := rfl
      rw [hunf, h0]
    rw [hstep]
    refine ih ys (fun i hi => ?_)
    have := h (i + 1) (by simp; omega)
    rwa [List.cons_append, List.drop_succ_cons] at this

def challengePrefix (appName : String) (nonce : Option String)
    (randNonce : String) : List Char :=
  appName.toList ++ " wants you to sign in with your Solana account.\n\nNonce: ".toList ++
    (if strTruthy nonce then nonce.getD "" else randNonce).toList ++ ['\n']

theorem generateSignatureMessage_decomp (appName : String) (nonce : Option String)
    (randNonce : String) (now : Nat) :
    (generateSignatureMessage appName nonce randNonce now).toList
      = challengePrefix appName nonce randNonce ++ (tsLit ++ natDecimal now) := by
  have hts : "\nTimestamp: ".toList = '\n' :: tsLit := by decide
  simp [generateSignatureMessage, challengePrefix, hts, tsLit]

/-- C8 amended: whenever no occurrence of `Timestamp: ` followed by a digit
begins strictly before the final `Timestamp:` line of the challenge (true in
particular for any `appName`/`nonce` not containing that pattern), the
extractor recovers exactly the generation time. -/
theorem challenge_timestamp_roundtrip (appName : String) (nonce : Option String)
    (randNonce : String) (now : Nat)
    (hclean : ∀ i, i < (challengePrefix appName nonce randNonce).length →
      matchTsAt ((generateSignatureMessage appName nonce randNonce now).toList.drop i) = none) :
    extractTs (generateSignatureMessage appName nonce randNonce now).toList = some now := by
  rw [generateSignatureMessage_decomp] at hclean ⊢
  rw [extractTs_append_of_none _ _ hclean]
  have htsne : tsLit ≠ [] := by decide
  exact extractTs_of_matchTsAt
    (fun hx => htsne (List.append_eq_nil.mp hx).1) (matchTsAt_tsLit now)

/-- C8 counterexample: an `appName` that itself contains `Timestamp: ` and a
digit hijacks the extractor's *first* regex match: the challenge generated at
`t = 5` for `appName = "Timestamp: 0"` parses to `0`, not `5`. -/
theorem challenge_timestamp_counterexample :
    extractTs (generateSignatureMessage "Timestamp: 0" (some "abc123") "zzz" 5).toList
      = some 0 ∧ (0 : Nat) ≠ 5 := by
  refine ⟨by decide, by decide⟩

/-- Witness for the amended C8 on a concrete clean challenge. -/
theorem challenge_timestamp_roundtrip_witness :
    extractTs (generateSignatureMessage "Acme" (some "abc123") "zzz" 5).toList = some 5 :=
  challenge_timestamp_roundtrip "Acme" (some "abc123") "zzz" 5 (by decide)

/-! ## Claims C1, C5, C6 — the User Linking Manager over the in-memory store -/

/-- One sequentially executed `UserLinkingManager` operation. -/
inductive UOp where
  | link (now : Int) (opts : UserLinkOptions)
  | unlink (userId : String)
  | getByPk (publicKey : String)
  | isLinked (publicKey : String)

/-- State reached by executing one manager operation against the in-memory
store (reads leave the store unchanged; a thrown manager error occurs before
any store mutation, so the state is the one returned by the call). -/
def stepU (s : UStore) : UOp → UStore
  | .link now o => (linkOrCreateUser memoryUserStore now o s).2
  | .unlink uid => (unlinkWallet memoryUserStore uid s).2
  | .getByPk pk => (getUserByPublicKey memoryUserStore pk s).2
  | .isLinked pk => (isWalletLinked memoryUserStore pk s).2

def c1Linked : UStore :=
  (linkOrCreateUser memoryUserStore 100 { publicKey := "PK1" } emptyUStore).2

def c1AfterUnlink : Except String UserRecord × UStore :=
  unlinkWallet memoryUserStore "1" c1Linked

/-- C1 (code bug, evaluated at the failing input): after linking `"PK1"` to
the user `"1"` and then `unlinkWallet("1")`, the returned record does have
`walletPublicKey`/`walletConnectedAt` cleared, but — because
`MemoryUserStore.update` skips wallet-index maintenance when
`walletPublicKey` is updated *to* `undefined` (`!== undefined` guard) — the
stale index entry makes `getUserByPublicKey("PK1")` return the cleared
record instead of `null`, and `isWalletLinked("PK1")` return `true`. -/
theorem unlinkWallet_stale_index :
    c1AfterUnlink.1 = .ok
      { id := "1"
        walletPublicKey := none
        email := none
        walletConnectedAt := none
        metadata := some [] } ∧
    (getUserByPublicKey memoryUserStore "PK1" c1AfterUnlink.2).1 = .ok (some
      { id := "1"
        walletPublicKey := none
        email := none
        walletConnectedAt := none
        metadata := some [] }) ∧
    (isWalletLinked memoryUserStore "PK1" c1AfterUnlink.2).1 = .ok true := by
  refine ⟨by decide, by decide, by decide⟩

def c5DoubleEmpty : UStore :=
  [UOp.link 100 { publicKey := "" }, UOp.link 200 { publicKey := "" }].foldl stepU emptyUStore

/-- C5 counterexample: two `linkOrCreateUser` calls with the empty-string
publicKey each create a fresh record holding `walletPublicKey = ""` (the
empty string is falsy, so it is neither indexed nor found), so two distinct
records hold the same `walletPublicKey` value. -/
theorem wallet_unique_counterexample :
    (c5DoubleEmpty.users "1").map (fun u => u.walletPublicKey) = some (some "") ∧
    (c5DoubleEmpty.users "2").map (fun u => u.walletPublicKey) = some (some "") ∧
    ("1" : String) ≠ "2" := by
  refine ⟨by decide, by decide, by decide⟩

def c6First : Except String UserRecord × UStore :=
  linkOrCreateUser memoryUserStore 100 { publicKey := "" } emptyUStore

def c6Second : Except String UserRecord × UStore :=
  linkOrCreateUser memoryUserStore 100 { publicKey := "" } c6First.2

/-- C6 counterexample: with the empty-string publicKey, two successive
`linkOrCreateUser` calls return two *different* records (`id "1"` vs
`id "2"`), and the second call does change the store. -/
theorem linkOrCreateUser_empty_key_counterexample :
    c6First.1 = .ok
      { id := "1"
        walletPublicKey := some ""
        walletConnectedAt := some 100
        metadata := some [] } ∧
    c6Second.1 = .ok
      { id := "2"
        walletPublicKey := some ""
        walletConnectedAt := some 100
        metadata := some [] } ∧
    c6Second.1 ≠ c6First.1 ∧
    c6Second.2.users "2" ≠ c6First.2.users "2" := by
  refine ⟨by decide, by decide, by decide, ?_⟩
  intro h
  have h2 : c6Second.2.users "2" = some
      { id := "2"
        walletPublicKey := some ""
        walletConnectedAt := some 100
        metadata := some [] } := by decide
  have h1 : c6First.2.users "2" = none := by decide
  rw [h2, h1] at h
  cases h

/-- Inductive invariant of reachable `MemoryUserStore` states: records carry
their own key, no record lives under the empty id, and every record holding
a truthy (non-empty) wallet key is indexed under it. -/
structure UInv (s : UStore) : Prop where
  idCoherent : ∀ uid u, s.users uid = some u → u.id = uid
  noEmptyId : s.users "" = none
  holderIndexed : ∀ uid u w, s.users uid = some u → u.walletPublicKey = some w →
    w ≠ "" → s.walletIndex w = some uid

theorem uinv_empty : UInv emptyUStore := by
  constructor
  · intro uid u h
    cases h
  · rfl
  · intro uid u w h
    cases h

theorem mk_natDecimal_ne_empty (n : Nat) : String.mk (natDecimal n) ≠ "" :=
  fun h => natDecimal_ne_nil n (congrArg String.data h)

theorem no_holder_of_find_none (s : UStore) (hInv : UInv s) (pk : String)
    (hnf : memFindByPublicKey s pk = none) :
    ∀ uid u, s.users uid = some u → u.walletPublicKey = some pk → pk ≠ "" → False := by
  intro uid u hu hw hpkne
  have hwi := hInv.holderIndexed uid u pk hu hw hpkne
  have huidne : uid ≠ "" := by
    intro h
    rw [h, hInv.noEmptyId] at hu
    cases hu
  have hfind : memFindByPublicKey s pk = s.users uid := by
    unfold memFindByPublicKey
    rw [hwi]
    show (if uid = "" then none else s.users uid) = s.users uid
    exact if_neg huidne
  rw [hnf, hu] at hfind
  cases hfind

theorem memUpdate_link_reduce (s : UStore) (uid : String) (user : UserRecord)
    (pk : String) (n : Int) (md : Metadata)
    (huser : s.users uid = some user)
    (hfal : strTruthy user.walletPublicKey = false) :
    memUpdate s uid
      { walletPublicKey := some (some pk)
        walletConnectedAt := some (some n)
        metadata := some (some md) } =
    (.ok
      { id := user.id
        walletPublicKey := some pk
        email := user.email
        walletConnectedAt := some n
        metadata := some md },
     { users := fSet s.users uid
        { id := user.id
          walletPublicKey := some pk
          email := user.email
          walletConnectedAt := some n
          metadata := some md }
       emailIndex := s.emailIndex
       walletIndex := if pk ≠ "" then fSet s.walletIndex pk uid else s.walletIndex
       nextId := s.nextId }) := by
  simp only [memUpdate, huser, hfal, Bool.false_eq_true, if_false, Option.getD_some,
    Option.getD_none]

theorem memCreate_reduce (s : UStore) (pk : String) (em : Option String)
    (n : Int) (md : Option Metadata) :
    memCreate s
      { walletPublicKey := some pk
        email := em
        walletConnectedAt := some n
        metadata := md } =
    ({ id := String.mk (natDecimal s.nextId)
       walletPublicKey := some pk
       email := em
       walletConnectedAt := some n
       metadata := some (md.getD []) },
     { users := fSet s.users (String.mk (natDecimal s.nextId))
        { id := String.mk (natDecimal s.nextId)
          walletPublicKey := some pk
          email := em
          walletConnectedAt := some n
          metadata := some (md.getD []) }
       emailIndex :=
         if strTruthy em then
           fSet s.emailIndex (em.getD "") (String.mk (natDecimal s.nextId))
         else s.emailIndex
       walletIndex :=
         if strTruthy (some pk) then
           fSet s.walletIndex pk (String.mk (natDecimal s.nextId))
         else s.walletIndex
       nextId := s.nextId + 1 }) := rfl

theorem memUpdate_unlink_reduce (s : UStore) (uid : String) (user : UserRecord)
    (huser : s.users uid = some user) :
    memUpdate s uid { walletPublicKey := some none, walletConnectedAt := some none } =
    (.ok
      { id := user.id
        walletPublicKey := none
        email := user.email
        walletConnectedAt := none
        metadata := user.metadata },
     { users := fSet s.users uid
        { id := user.id
          walletPublicKey := none
          email := user.email
          walletConnectedAt := none
          metadata := user.metadata }
       emailIndex := s.emailIndex
       walletIndex := s.walletIndex
       nextId := s.nextId }) := by
  simp only [memUpdate, huser, Option.getD_some, Option.getD_none]

theorem uinv_link_state (s : UStore) (hInv : UInv s) (ei : String → Option String)
    (nid : Nat) (uid : String) (uNew : UserRecord) (pk : String)
    (hidNew : uNew.id = uid) (hwNew : uNew.walletPublicKey = some pk)
    (huidne : uid ≠ "")
    (hnoh : ∀ uid2 u2, s.users uid2 = some u2 → u2.walletPublicKey = some pk →
      pk ≠ "" → False) :
    UInv { users := fSet s.users uid uNew
           emailIndex := ei
           walletIndex := if pk ≠ "" then fSet s.walletIndex pk uid else s.walletIndex
           nextId := nid } := by
  constructor
  · intro uid2 u2 h2
    have h2' : fSet s.users uid uNew uid2 = some u2 := h2
    by_cases he : uid2 = uid
    · subst he
      rw [fSet_same] at h2'
      obtain rfl := Option.some.inj h2'
      exact hidNew
    · rw [fSet_other _ _ he] at h2'
      exact hInv.idCoherent uid2 u2 h2'
  · show fSet s.users uid uNew "" = none
    rw [fSet_other _ _ (Ne.symm huidne)]
    exact hInv.noEmptyId
  · intro uid2 u2 w h2 hw hwne
    have h2' : fSet s.users uid uNew uid2 = some u2 := h2
    show (if pk ≠ "" then fSet s.walletIndex pk uid else s.walletIndex) w = some uid2
    by_cases he : uid2 = uid
    · subst he
      rw [fSet_same] at h2'
      obtain rfl := Option.some.inj h2'
      rw [hwNew] at hw
      obtain rfl := Option.some.inj hw
      rw [if_pos hwne, fSet_same]
    · rw [fSet_other _ _ he] at h2'
      have hold := hInv.holderIndexed uid2 u2 w h2' hw hwne
      by_cases hpk : pk ≠ ""
      · rw [if_pos hpk]
        by_cases hwp : w = pk
        · exact (hnoh uid2 u2 h2' (by rw [← hwp]; exact hw) hpk).elim
        · rw [fSet_other _ _ hwp]
          exact hold
      · rw [if_neg hpk]
        exact hold

theorem uinv_update_link (s : UStore) (hInv : UInv s) (uid : String)
    (user : UserRecord) (pk : String) (n : Int) (md : Metadata)
    (huser : s.users uid = some user)
    (hfal : strTruthy user.walletPublicKey = false)
    (hnf : memFindByPublicKey s pk = none) :
    UInv (memUpdate s uid
      { walletPublicKey := some (some pk)
        walletConnectedAt := some (some n)
        metadata := some (some md) }).2 := by
  rw [memUpdate_link_reduce s uid user pk n md huser hfal]
  have huidne : uid ≠ "" := by
    intro h
    rw [h, hInv.noEmptyId] at huser
    cases huser
  exact uinv_link_state s hInv s.emailIndex s.nextId uid _ pk
    (hInv.idCoherent uid user huser) rfl huidne (no_holder_of_find_none s hInv pk hnf)

theorem uinv_create (s : UStore) (hInv : UInv s) (pk : String) (em : Option String)
    (n : Int) (md : Option Metadata)
    (hnf : memFindByPublicKey s pk = none) :
    UInv (memCreate s
      { walletPublicKey := some pk
        email := em
        walletConnectedAt := some n
        metadata := md }).2 := by
  rw [memCreate_reduce]
  have hbridge :
      (if strTruthy (some pk) then
        fSet s.walletIndex pk (String.mk (natDecimal s.nextId))
      else s.walletIndex)
      = (if pk ≠ "" then
          fSet s.walletIndex pk (String.mk (natDecimal s.nextId))
        else s.walletIndex) := by
    by_cases h : pk = "" <;> simp [strTruthy, h]
  rw [hbridge]
  exact uinv_link_state s hInv _ _ _ _ pk rfl rfl
    (mk_natDecimal_ne_empty s.nextId) (no_holder_of_find_none s hInv pk hnf)

theorem uinv_unlink (s : UStore) (hInv : UInv s) (uid : String) (user : UserRecord)
    (huser : s.users uid = some user) :
    UInv (memUpdate s uid
      { walletPublicKey := some none, walletConnectedAt := some none }).2 := by
  rw [memUpdate_unlink_reduce s uid user huser]
  have huidne : uid ≠ "" := by
    intro h
    rw [h, hInv.noEmptyId] at huser
    cases huser
  constructor
  · intro uid2 u2 h2
    have h2' : fSet s.users uid _ uid2 = some u2 := h2
    by_cases he : uid2 = uid
    · subst he
      rw [fSet_same] at h2'
      obtain rfl := Option.some.inj h2'
      exact hInv.idCoherent uid2 user huser
    · rw [fSet_other _ _ he] at h2'
      exact hInv.idCoherent uid2 u2 h2'
  · show fSet s.users uid _ "" = none
    rw [fSet_other _ _ (Ne.symm huidne)]
    exact hInv.noEmptyId
  · intro uid2 u2 w h2 hw hwne
    have h2' : fSet s.users uid _ uid2 = some u2 := h2
    show s.walletIndex w = some uid2
    by_cases he : uid2 = uid
    · subst he
      rw [fSet_same] at h2'
      obtain rfl := Option.some.inj h2'
      cases hw
    · rw [fSet_other _ _ he] at h2'
      exact hInv.holderIndexed uid2 u2 w h2' hw hwne

theorem memFindByEmail_users (s : UStore) (hInv : UInv s) (e : String)
    (user : UserRecord) (hfe : memFindByEmail s e = some user) :
    s.users user.id = some user := by
  unfold memFindByEmail at hfe
  cases hei : s.emailIndex e with
  | none =>
    rw [hei] at hfe
    cases hfe
  | some uid3 =>
    rw [hei] at hfe
    have hfe' : (if uid3 = "" then none else s.users uid3) = some user := hfe
    by_cases h3 : uid3 = ""
    · rw [if_pos h3] at hfe'
      cases hfe'
    · rw [if_neg h3] at hfe'
      rw [hInv.idCoherent uid3 user hfe']
      exact hfe'

theorem uinv_step (s : UStore) (hInv : UInv s) (op : UOp) : UInv (stepU s op) := by
  cases op with
  | getByPk pk => exact hInv
  | isLinked pk => exact hInv
  | unlink uid =>
    show UInv (unlinkWallet memoryUserStore uid s).2
    cases hu : s.users uid with
    | none =>
      have hst : (unlinkWallet memoryUserStore uid s).2 = s := by
        simp only [unlinkWallet, memoryUserStore, hu]
      rw [hst]
      exact hInv
    | some user =>
      have hst : (unlinkWallet memoryUserStore uid s).2
          = (memUpdate s uid
              { walletPublicKey := some none, walletConnectedAt := some none }).2 := by
        simp only [unlinkWallet, memoryUserStore, hu]
      rw [hst]
      exact uinv_unlink s hInv uid user hu
  | link now o =>
    show UInv (linkOrCreateUser memoryUserStore now o s).2
    cases hf : memFindByPublicKey s o.publicKey with
    | some u =>
      have hst : (linkOrCreateUser memoryUserStore now o s).2 = s := by
        simp only [linkOrCreateUser, memoryUserStore, hf]
      rw [hst]
      exact hInv
    | none =>
      cases hid : strTruthy o.existingUserId with
      | true =>
        cases hu : s.users (o.existingUserId.getD "") with
        | none =>
          have hst : (linkOrCreateUser memoryUserStore now o s).2 = s := by
            simp only [linkOrCreateUser, memoryUserStore, hf, hid, if_true, hu]
          rw [hst]
          exact hInv
        | some user =>
          cases hw : strTruthy user.walletPublicKey with
          | true =>
            have hst : (linkOrCreateUser memoryUserStore now o s).2 = s := by
              simp only [linkOrCreateUser, memoryUserStore, hf, hid, if_true, hu, hw]
            rw [hst]
            exact hInv
          | false =>
            have hst : (linkOrCreateUser memoryUserStore now o s).2
                = (memUpdate s (o.existingUserId.getD "")
                    { walletPublicKey := some (some o.publicKey)
                      walletConnectedAt := some (some now)
                      metadata := some (some (jsMerge (user.metadata.getD [])
                        (o.metadata.getD []))) }).2 := by
              simp only [linkOrCreateUser, memoryUserStore, hf, hid, if_true, hu, hw,
                Bool.false_eq_true, if_false]
            rw [hst]
            exact uinv_update_link s hInv _ user o.publicKey now _ hu hw hf
      | false =>
        cases hem : strTruthy o.email with
        | true =>
          cases hfe : memFindByEmail s (o.email.getD "") with
          | some user =>
            cases hw : strTruthy user.walletPublicKey with
            | true =>
              have hst : (linkOrCreateUser memoryUserStore now o s).2 = s := by
                simp only [linkOrCreateUser, linkViaEmailOrCreate, memoryUserStore, hf,
                  hid, Bool.false_eq_true, if_false, hem, if_true, hfe, hw]
              rw [hst]
              exact hInv
            | false =>
              have hst : (linkOrCreateUser memoryUserStore now o s).2
                  = (memUpdate s user.id
                      { walletPublicKey := some (some o.publicKey)
                        walletConnectedAt := some (some now)
                        metadata := some (some (jsMerge (user.metadata.getD [])
                          (o.metadata.getD []))) }).2 := by
                simp only [linkOrCreateUser, linkViaEmailOrCreate, memoryUserStore, hf,
                  hid, Bool.false_eq_true, if_false, hem, if_true, hfe, hw]
              rw [hst]
              exact uinv_update_link s hInv user.id user o.publicKey now _
                (memFindByEmail_users s hInv _ user hfe) hw hf
          | none =>
            have hst : (linkOrCreateUser memoryUserStore now o s).2
                = (memCreate s
                    { walletPublicKey := some o.publicKey
                      email := o.email
                      walletConnectedAt := some now
                      metadata := o.metadata }).2 := by
              simp only [linkOrCreateUser, linkViaEmailOrCreate, createNewUser,
                memoryUserStore, hf, hid, Bool.false_eq_true, if_false, hem, if_true, hfe]
            rw [hst]
            exact uinv_create s hInv o.publicKey o.email now o.metadata hf
        | false =>
          have hst : (linkOrCreateUser memoryUserStore now o s).2
              = (memCreate s
                  { walletPublicKey := some o.publicKey
                    email := o.email
                    walletConnectedAt := some now
                    metadata := o.metadata }).2 := by
            simp only [linkOrCreateUser, linkViaEmailOrCreate, createNewUser,
              memoryUserStore, hf, hid, hem, Bool.false_eq_true, if_false]
          rw [hst]
          exact uinv_create s hInv o.publicKey o.email now o.metadata hf

/-- C5 amended: starting from the empty store, every sequence of
sequentially executed manager operations preserves the invariant that at
most one user record holds any given *non-empty* `walletPublicKey` (two
records may share the empty-string value, which the store treats as falsy).
-/
theorem wallet_unique (ops : List UOp) (uid1 uid2 : String) (u1 u2 : UserRecord)
    (w : String) (hw : w ≠ "")
    (h1 : (ops.foldl stepU emptyUStore).users uid1 = some u1)
    (h2 : (ops.foldl stepU emptyUStore).users uid2 = some u2)
    (hw1 : u1.walletPublicKey = some w) (hw2 : u2.walletPublicKey = some w) :
    uid1 = uid2 := by
  have hall : ∀ (l : List UOp) (t : UStore), UInv t → UInv (l.foldl stepU t) := by
    intro l
    induction l with
    | nil => intro t ht; exact ht
    | cons op l ih => intro t ht; exact ih (stepU t op) (uinv_step t ht op)
  have hInv := hall ops emptyUStore uinv_empty
  have e1 := hInv.holderIndexed uid1 u1 w h1 hw1 hw
  have e2 := hInv.holderIndexed uid2 u2 w h2 hw2 hw
  rw [e1] at e2
  exact Option.some.inj e2

def c5WitnessRecord : UserRecord :=
  { id := "1", walletPublicKey := some "PK", walletConnectedAt := some 5,
    metadata := some [] }

/-- Witness for the amended C5 after one concrete link operation. -/
theorem wallet_unique_witness : ("1" : String) = "1" :=
  wallet_unique [UOp.link 5 { publicKey := "PK" }] "1" "1"
    c5WitnessRecord c5WitnessRecord "PK"
    (by decide) (by decide) (by decide) (by decide) (by decide)

theorem memFindByPublicKey_state (users' : String → Option UserRecord)
    (ei wi : String → Option String) (nid' : Nat) (pk uid : String)
    (hne : uid ≠ "") (hwi : wi pk = some uid) :
    memFindByPublicKey
      { users := users', emailIndex := ei, walletIndex := wi, nextId := nid' } pk
      = users' uid := by
  unfold memFindByPublicKey
  show (match wi pk with
        | none => none
        | some userId => if userId = "" then none else users' userId) = users' uid
  rw [hwi]
  show (if uid = "" then none else users' uid) = users' uid
  exact if_neg hne

/-- C6 amended: for every *non-empty* publicKey and any starting store,
calling `linkOrCreateUser` with only that publicKey twice in sequence
returns the same (successful) record both times, and the second call leaves
the store exactly as the first left it. -/
theorem linkOrCreateUser_idempotent (s : UStore) (pk : String) (now now2 : Int)
    (hpk : pk ≠ "") :
    (∃ u, (linkOrCreateUser memoryUserStore now { publicKey := pk } s).1 = .ok u) ∧
    linkOrCreateUser memoryUserStore now2 { publicKey := pk }
        (linkOrCreateUser memoryUserStore now { publicKey := pk } s).2
      = ((linkOrCreateUser memoryUserStore now { publicKey := pk } s).1,
         (linkOrCreateUser memoryUserStore now { publicKey := pk } s).2) := by
  cases hf : memFindByPublicKey s pk with
  | some u =>
    have hst : linkOrCreateUser memoryUserStore now { publicKey := pk } s = (.ok u, s) := by
      simp only [linkOrCreateUser, memoryUserStore, hf]
    rw [hst]
    refine ⟨⟨u, rfl⟩, ?_⟩
    simp only [linkOrCreateUser, memoryUserStore, hf]
  | none =>
    have hstr : strTruthy (some pk) = true := by
      simp [strTruthy, hpk]
    have hfirst : linkOrCreateUser memoryUserStore now { publicKey := pk } s
        = (.ok (memCreate s
            { walletPublicKey := some pk
              email := none
              walletConnectedAt := some now
              metadata := none }).1,
          (memCreate s
            { walletPublicKey := some pk
              email := none
              walletConnectedAt := some now
              metadata := none }).2) := by
      simp only [linkOrCreateUser, linkViaEmailOrCreate, createNewUser, memoryUserStore,
        hf, strTruthy, Bool.false_eq_true, if_false]
    rw [hfirst, memCreate_reduce]
    refine ⟨⟨_, rfl⟩, ?_⟩
    have hwi : (if strTruthy (some pk) then
          fSet s.walletIndex pk (String.mk (natDecimal s.nextId))
        else s.walletIndex) pk = some (String.mk (natDecimal s.nextId)) := by
      rw [hstr, if_pos rfl]
      exact fSet_same _ _ _
    have hfind2 : memFindByPublicKey
        { users := fSet s.users (String.mk (natDecimal s.nextId))
            { id := String.mk (natDecimal s.nextId)
              walletPublicKey := some pk
              email := none
              walletConnectedAt := some now
              metadata := some ((none : Option Metadata).getD []) }
          emailIndex :=
            if strTruthy (none : Option String) then
              fSet s.emailIndex ((none : Option String).getD "")
                (String.mk (natDecimal s.nextId))
            else s.emailIndex
          walletIndex :=
            if strTruthy (some pk) then
              fSet s.walletIndex pk (String.mk (natDecimal s.nextId))
            else s.walletIndex
          nextId := s.nextId + 1 } pk
        = some
          { id := String.mk (natDecimal s.nextId)
            walletPublicKey := some pk
            email := none
            walletConnectedAt := some now
            metadata := some ((none : Option Metadata).getD []) } := by
      rw [memFindByPublicKey_state _ _ _ _ pk (String.mk (natDecimal s.nextId))
        (mk_natDecimal_ne_empty s.nextId) hwi]
      exact fSet_same _ _ _
    simp only [linkOrCreateUser, memoryUserStore, hfind2]

/-- Witness for the amended C6 on the empty store. -/
theorem linkOrCreateUser_idempotent_witness :
    linkOrCreateUser memoryUserStore 9 { publicKey := "PK" }
        (linkOrCreateUser memoryUserStore 5 { publicKey := "PK" } emptyUStore).2
      = ((linkOrCreateUser memoryUserStore 5 { publicKey := "PK" } emptyUStore).1,
         (linkOrCreateUser memoryUserStore 5 { publicKey := "PK" } emptyUStore).2) :=
  (linkOrCreateUser_idempotent emptyUStore "PK" 5 9 (by decide)).2

/-- Witness instantiating the C10 middleware theorem at a concrete request
with no header. -/
theorem optional_middleware_never_rejects_witness :
    (optionalWalletAuthMiddleware (fun _ => true) (fun _ _ _ => true)
      (fun s => some s) true 300000 0 .missing).nextCalled = true :=
  (optional_middleware_never_rejects (fun _ => true) (fun _ _ _ => true)
    (fun s => some s) true 300000 0 .missing).1
